import Mathlib

/-!
Verification of the live-preview placeholder engine.

The development shallowly embeds the placeholder type-inference engine of
`src/unnamed/part_001` (the `icu-message-format` / `icu-xml-format` parser
module: `update_maybe_value` and `extract`) and the incremental reconciler of
`src/weblate/static/editor/live_preview.js` (`syncContent`, `changePage`,
`updateValue`, `updateTranslation`).

Modelling conventions:
* A parsed message AST is the JavaScript value produced by the external
  `format-message-parse` library: an array of tokens, where a token is either
  a plain string (literal text) or an array `[name, type, arg2, arg3, arg4]`.
  `Ast.atom` stands for any non-array value reaching an AST position,
  `Arg.absent` for an argument slot holding `undefined` or any non-object
  value, and `Arg.obj` for an object mapping branch keys to sub-ASTs
  (insertion order preserved, as JavaScript objects preserve it).
* JavaScript objects used as keyed maps (`variables`, `editors`, `defaults`,
  `tags`, the page value sets) are association lists in insertion order;
  `alook` is property lookup and `aput` is property assignment (update in
  place, or append for a new key).
* The tri-state fields hold `MaybeVal`: `undef` is an unset property,
  `val b` a boolean, `null` the JavaScript `null` produced by a merge
  conflict.
* `PInfo.keyOrder` is bookkeeping for the object's property insertion order,
  which `JSON.stringify` exposes; `jsonEntries` models the result of
  `JSON.stringify` on an extracted entry (serialization is injective on
  these shapes, so string equality of the JSON texts is equality of
  `jsonEntries` lists).
* DOM identity of a widget or of a tag callback is modelled by a fresh
  numeric id drawn from the `editor_id` counter: two objects are the same
  instance exactly when their ids are equal.
* `new Date()` is modelled by an explicit `now : Int` input (epoch millis);
  `new Date(v)` by `jsNewDate`, with `Val.dateStr s` the opaque result of
  parsing the string `s` as a date.
* The external `parse` is an input of `syncContent`: an `Except` carrying
  either the AST or the thrown error's message.

All functions are total structural recursions, so extraction is total over
its input domain by construction.
-/

/-! ## The parsed message AST -/

mutual

inductive Ast where
  | atom : Ast
  | node : Toks → Ast

inductive Toks where
  | nil : Toks
  | cons : Tok → Toks → Toks

inductive Tok where
  | lit : String → Tok
  | ph : String → Option String → Arg → Arg → Arg → Tok

inductive Arg where
  | absent : Arg
  | obj : Branches → Arg

inductive Branches where
  | nil : Branches
  | cons : String → Ast → Branches → Branches

end

/-! ## PlaceholderInfo -/

/-- Tri-state property value: unset (`undef`), a boolean, or JavaScript
`null` (the merge conflict marker the spec calls `unknown`). -/
inductive MaybeVal where
  | undef : MaybeVal
  | val : Bool → MaybeVal
  | null : MaybeVal
  deriving DecidableEq, Repr

/-- Value of the `editor_type` property: a string, or the literal `false`
that suppresses the editor. -/
inductive EditorType where
  | str : String → EditorType
  | disabled : EditorType
  deriving DecidableEq, Repr

/-- One entry of the extracted placeholder map (the `data` object of
`extract` in part_001). `keyOrder` records property insertion order for the
`JSON.stringify` comparison in `syncContent`. -/
structure PInfo where
  name : String
  type : Option String := none
  is_number : MaybeVal := .undef
  is_date : MaybeVal := .undef
  is_tag : MaybeVal := .undef
  is_empty : MaybeVal := .undef
  choices : Option (List String) := none
  editor_type : Option EditorType := none
  keyOrder : List String := ["name"]
  deriving DecidableEq, Repr

/-- Record that a property was assigned: append the key to the insertion
order if it is new. -/
def addKey (d : PInfo) (k : String) : PInfo :=
  if k ∈ d.keyOrder then d else { d with keyOrder := d.keyOrder ++ [k] }

/-- Source: `update_maybe_value(value, old)` in part_001. -/
def update_maybe_value (value : Bool) (old : MaybeVal) : MaybeVal :=
  if old = .undef ∨ MaybeVal.val value = old then .val value else .null

def TAG_TYPE : String := "<,TAG,>"

def NUMERIC_TYPES : List String := ["number", "plural", "selectordinal", "spellout"]

def DATE_TYPES : List String := ["date", "time", "datetime"]

/-- The `INPUT_TYPES` lookup object of part_001. -/
def INPUT_TYPES (s : String) : Option String :=
  if s = "date" then some "date"
  else if s = "time" then some "time"
  else if s = "datetime" then some "datetime-local"
  else if s = "duration" then some "number"
  else if s = "select" then some "select"
  else none

/-- JavaScript truthiness of a string-or-undefined value. -/
def strTruthy : Option String → Bool
  | some s => !(decide (s = ""))
  | none => false

/-- `LIST.includes(ty)` for an optional string. -/
def typeIn (l : List String) (ty : Option String) : Bool :=
  match ty with
  | some s => decide (s ∈ l)
  | none => false

/-- Truthiness of a `MaybeVal` (`null` and `false` are falsy). -/
def mtruthy : MaybeVal → Bool
  | .val true => true
  | _ => false

def argChildrenGo : Branches → Option Ast
  | .nil => none
  | .cons k t rest => if k = "children" then some t else argChildrenGo rest

/-- Lookup of the `children` property of `token[2]`
(`token[2] && token[2].children`). -/
def argChildren : Arg → Option Ast
  | .absent => none
  | .obj es => argChildrenGo es

/-- JavaScript truthiness of an argument slot (`undefined` is falsy, any
object is truthy). -/
def argTruthy : Arg → Bool
  | .absent => false
  | .obj _ => true

def argKeysGo : Branches → List String
  | .nil => []
  | .cons k _ rest => k :: argKeysGo rest

/-- `Object.keys(token[2])`, in insertion order. -/
def argKeys : Arg → List String
  | .absent => []
  | .obj es => argKeysGo es

/-- `!children || !Array.isArray(children) || !children.length`. -/
def childrenEmpty (c : Option Ast) : Bool :=
  match c with
  | some (.node (.cons _ _)) => false
  | _ => true

/-- `data.type && INPUT_TYPES[data.type]` as one optional lookup. -/
def inputTypeOf (ty : Option String) : Option String :=
  match ty with
  | some s => if s = "" then none else INPUT_TYPES s
  | none => none

/-- Kind assignment for one occurrence (part_001 lines 38-47):
`if (!data.type && type) data.type = type; else if (… date/time pair …)
data.type = "datetime";`. -/
def stepKind (ty : Option String) (d0 : PInfo) : PInfo :=
  if !strTruthy d0.type && strTruthy ty then addKey { d0 with type := ty } "type"
  else if (d0.type = some "date" ∧ ty = some "time")
      ∨ (d0.type = some "time" ∧ ty = some "date") then
    { d0 with type := some "datetime" }
  else d0

/-- The four tri-state updates for one occurrence (part_001 lines 49-61):
`is_number`, `is_date`, `is_tag` unconditionally; `is_empty` only when this
occurrence is a tag. -/
def stepFlags (ty : Option String) (a2 : Arg) (d1 : PInfo) : PInfo :=
  let d2 := addKey { d1 with is_number := update_maybe_value (typeIn NUMERIC_TYPES ty) d1.is_number } "is_number"
  let d3 := addKey { d2 with is_date := update_maybe_value (typeIn DATE_TYPES ty) d2.is_date } "is_date"
  let isTag : Bool := decide (ty = some TAG_TYPE)
  let d4 := addKey { d3 with is_tag := update_maybe_value isTag d3.is_tag } "is_tag"
  if isTag then
    addKey { d4 with is_empty := update_maybe_value (childrenEmpty (argChildren a2)) d4.is_empty } "is_empty"
  else d4

/-- Choice accumulation for one occurrence (part_001 lines 63-69):
`if (type === "select" && token[2]) … concat or assign Object.keys`. -/
def stepChoices (ty : Option String) (a2 : Arg) (d5 : PInfo) : PInfo :=
  if decide (ty = some "select") && argTruthy a2 then
    match d5.choices with
    | some cs => { d5 with choices := some (cs ++ argKeys a2) }
    | none => addKey { d5 with choices := some (argKeys a2) } "choices"
  else d5

/-- Editor-type classification, re-run after every occurrence (part_001
lines 71-76). When no branch fires the previous `editor_type` is kept. -/
def stepEditor (d6 : PInfo) : PInfo :=
  match inputTypeOf d6.type with
  | some e => addKey { d6 with editor_type := some (.str e) } "editor_type"
  | none =>
    if mtruthy d6.is_number then addKey { d6 with editor_type := some (.str "number") } "editor_type"
    else if mtruthy d6.is_date then addKey { d6 with editor_type := d6.type.map EditorType.str } "editor_type"
    else if mtruthy d6.is_tag && mtruthy d6.is_empty then addKey { d6 with editor_type := some .disabled } "editor_type"
    else d6

/-- Effect of one placeholder token on its entry: the statements of
`extract`'s loop body in part_001 between the entry fetch and the descent
into sub-ASTs, in source order (kind merge, the four tri-state updates,
choice accumulation, editor-type classification). `ty` is `token[1]` and
`a2` is `token[2]`. -/
def stepData (ty : Option String) (a2 : Arg) (d0 : PInfo) : PInfo :=
  stepEditor (stepChoices ty a2 (stepFlags ty a2 (stepKind ty d0)))

/-! ## Association lists (JavaScript objects as keyed maps) -/

/-- Property lookup in an insertion-ordered object. -/
def alook {α : Type} : List (String × α) → String → Option α
  | [], _ => none
  | (k', v) :: rest, k => if k' = k then some v else alook rest k

/-- Property assignment: overwrite in place, or append a new key. -/
def aput {α : Type} : List (String × α) → String → α → List (String × α)
  | [], k, v => [(k, v)]
  | (k', v') :: rest, k, v =>
      if k' = k then (k, v) :: rest else (k', v') :: aput rest k v

/-- The extracted placeholder map (the `variables` object of part_001's
`extract`). -/
abbrev Vars := List (String × PInfo)

/-! ## The extractor (part_001's `extract`) -/

mutual

/-- Source: `extract(ast, variables)` of part_001. Non-array input returns
the accumulator unchanged; an array is processed token by token. -/
def extract : Ast → Vars → Vars
  | .atom, vars => vars
  | .node ts, vars => extractToks ts vars

def extractToks : Toks → Vars → Vars
  | .nil, vars => vars
  | .cons t rest, vars => extractToks rest (extractTok t vars)

/-- One iteration of `extract`'s token loop: a non-array token is skipped,
a `#` placeholder is skipped, otherwise the entry is fetched or created,
mutated by `stepData`, and then the object-valued argument slots are
descended into. -/
def extractTok : Tok → Vars → Vars
  | .lit _, vars => vars
  | .ph name ty a2 a3 a4, vars =>
    if name = "#" then vars
    else
      let data := (alook vars name).getD { name := name }
      let vars1 := aput vars name (stepData ty a2 data)
      extractArg a4 (extractArg a3 (extractArg a2 vars1))

def extractArg : Arg → Vars → Vars
  | .absent, vars => vars
  | .obj es, vars => extractBranches es vars

def extractBranches : Branches → Vars → Vars
  | .nil, vars => vars
  | .cons _ t rest, vars => extractBranches rest (extract t vars)

end

/-! ## JSON.stringify on an extracted entry -/

/-- A JSON-serializable property value of an extracted entry. -/
inductive JField where
  | s : String → JField
  | b : Bool → JField
  | null : JField
  | strs : List String → JField
  deriving DecidableEq, Repr

/-- Serialization of a tri-state property (`undefined` properties are
skipped by `JSON.stringify`). -/
def mvalField : MaybeVal → Option JField
  | .undef => none
  | .val b => some (.b b)
  | .null => some .null

/-- The serialized value of one property of an entry. -/
def fieldVal (d : PInfo) (k : String) : Option JField :=
  if k = "name" then some (.s d.name)
  else if k = "type" then d.type.map .s
  else if k = "is_number" then mvalField d.is_number
  else if k = "is_date" then mvalField d.is_date
  else if k = "is_tag" then mvalField d.is_tag
  else if k = "is_empty" then mvalField d.is_empty
  else if k = "choices" then d.choices.map .strs
  else if k = "editor_type" then
    match d.editor_type with
    | some (.str s) => some (.s s)
    | some .disabled => some (.b false)
    | none => none
  else none

/-- Model of `JSON.stringify` on an extracted entry: the serialized
key/value pairs in property insertion order. Two entries produce the same
JSON text exactly when these lists are equal. -/
def jsonEntries (d : PInfo) : List (String × JField) :=
  d.keyOrder.filterMap (fun k => (fieldVal d k).map (fun v => (k, v)))

/-- The `JSON.stringify(old_type) === JSON.stringify(type)` comparison of
`syncContent`. -/
def stringifyEq (a b : PInfo) : Bool :=
  decide (jsonEntries a = jsonEntries b)

example : update_maybe_value true .undef = .val true := by decide
example : update_maybe_value false (.val true) = .null := by decide
example : update_maybe_value true .null = .null := by decide

/-! ## JavaScript values in the value maps -/

/-- A JavaScript value held by `variables`, `defaults` or a page value set.
`date t` is a `Date` at epoch millisecond `t`; `dateStr s` is the opaque
`Date` obtained by parsing the string `s`; `tagCb i` is the tag-rendering
callback with identity `i` (only in the merged render map). -/
inductive Val where
  | undef : Val
  | null : Val
  | bool : Bool → Val
  | num : Int → Val
  | str : String → Val
  | date : Int → Val
  | dateStr : String → Val
  | invalidDate : Val
  | tagCb : Nat → Val
  deriving DecidableEq, Repr

/-- The JavaScript `typeof` operator on a modelled value. -/
def typeofVal : Val → String
  | .undef => "undefined"
  | .null => "object"
  | .bool _ => "boolean"
  | .num _ => "number"
  | .str _ => "string"
  | .date _ => "object"
  | .dateStr _ => "object"
  | .invalidDate => "object"
  | .tagCb _ => "function"

/-- JavaScript truthiness of a modelled value. -/
def valTruthy : Val → Bool
  | .undef => false
  | .null => false
  | .bool b => b
  | .num n => !(n == 0)
  | .str s => !(s == "")
  | .date _ => true
  | .dateStr _ => true
  | .invalidDate => true
  | .tagCb _ => true

/-- The `new Date(value)` coercion. -/
def jsNewDate : Val → Val
  | .num n => .date n
  | .null => .date 0
  | .bool b => .date (if b then 1 else 0)
  | .date t => .date t
  | .dateStr s => .dateStr s
  | .str s => .dateStr s
  | .invalidDate => .invalidDate
  | .undef => .invalidDate
  | .tagCb _ => .invalidDate

/-- One page's default-value set (an object parsed from the
`lp-defaults` JSON). -/
abbrev Page := List (String × Val)

/-- Source: `has(obj, key)` of live_preview.js (`hasOwnProperty` guarded by
the object's truthiness). -/
def has (obj : Option Page) (key : String) : Bool :=
  match obj with
  | some p => (alook p key).isSome
  | none => false

/-! ## Widgets and the reconciler state -/

/-- The concrete control `syncContent` creates: a `select` element populated
from `choices`, or an `input` with the given `type` attribute value
(`none` when `edit_type` was `undefined`, which leaves a plain text
input). -/
inductive WidgetKind where
  | selectBox : List String → WidgetKind
  | input : Option String → WidgetKind
  deriving DecidableEq, Repr

/-- A live editor control. `id` is the number drawn from the `editor_id`
counter (DOM identity: same `id` means same instance); `seed` is the value
written into the control when it was created. -/
structure Widget where
  id : Nat
  kind : WidgetKind
  seed : Val
  deriving DecidableEq, Repr

/-- The reconciler's mutable state: the closure variables of
`initLivePreview` that `syncContent`, `changePage` and the widget callbacks
read and write. Tag callbacks are identified by a fresh number (distinct
closures are distinct objects). -/
structure LPState where
  page : Int
  old_page : Option Int
  current_page : Option Page
  variables' : List (String × Val)
  editors : List (String × Widget)
  tags : List (String × Nat)
  defaults : List (String × Val)
  types : Option Vars
  parsed : Option Ast
  error : Option String
  nextId : Nat

/-- The default-value computation of `syncContent` (live_preview.js lines
183-194) for one placeholder that is getting a new widget. -/
def computeDefault (current_page : Option Page) (key : String) (ty : PInfo) (now : Int) : Val :=
  if has current_page key then
    let v := (alook (current_page.getD []) key).getD .undef
    if mtruthy ty.is_date then jsNewDate v else v
  else if mtruthy ty.is_date then .date now
  else if mtruthy ty.is_number then .num 1
  else if ty.type = some "select" ∧ ty.choices.isSome then
    match (ty.choices.getD []).head? with
    | some c => .str c
    | none => .undef
  else .str key

/-- The carry-forward test of `syncContent` (line 163): the page did not
change, an entry for the key existed before, and its JSON serialization
equals the new one. -/
def carries (st : LPState) (changed_page : Bool) (key : String) (ty : PInfo) : Bool :=
  !changed_page &&
    match st.types.bind (fun m => alook m key) with
    | some ot => stringifyEq ot ty
    | none => false

/-- The `datetime` → `datetime-local` remap applied to `edit_type` before it
becomes the input's `type` attribute. -/
def remapEtype : Option EditorType → Option String
  | some (.str s) => if s = "datetime" then some "datetime-local" else some s
  | some .disabled => none
  | none => none

/-- The kind of control created for an entry that is not carried, not a tag
and not suppressed. -/
def widgetKindFor (ty : PInfo) : WidgetKind :=
  if ty.editor_type = some (.str "select") then .selectBox (ty.choices.getD [])
  else .input (remapEtype ty.editor_type)

/-- The seed value written into a freshly created control: the stored user
override if its `typeof` matches the fresh default's, else the default
(lines 221-228). -/
def seedFor (variables' : List (String × Val)) (key : String) (value : Val) : Val :=
  let sv := (alook variables' key).getD .undef
  if typeofVal sv ≠ typeofVal value then value else sv

/-- Accumulator of `syncContent`'s reconciliation loop: the `new_editors`,
`new_tags` and `new_defaults` objects plus the `editor_id` counter. -/
structure SyncAcc where
  editors : List (String × Widget) := []
  tags : List (String × Nat) := []
  defaults : List (String × Val) := []
  nextId : Nat

/-- One iteration of `syncContent`'s `for (const [key, type] of
Object.entries(types))` loop (lines 161-263). -/
def syncStep (st : LPState) (changed_page : Bool) (now : Int) (acc : SyncAcc) (kv : String × PInfo) : SyncAcc :=
  let key := kv.1
  let ty := kv.2
  if carries st changed_page key ty then
    let acc :=
      match alook st.editors key with
      | some w => { acc with editors := acc.editors ++ [(key, w)] }
      | none => acc
    let acc :=
      match alook st.tags key with
      | some cb => { acc with tags := acc.tags ++ [(key, cb)] }
      | none => acc
    match alook st.defaults key with
    | some v => if valTruthy v then { acc with defaults := acc.defaults ++ [(key, v)] } else acc
    | none => acc
  else if mtruthy ty.is_tag then
    { acc with tags := acc.tags ++ [(key, acc.nextId)], nextId := acc.nextId + 1 }
  else
    let value := computeDefault st.current_page key ty now
    let acc := { acc with defaults := acc.defaults ++ [(key, value)] }
    if ty.editor_type = some .disabled then acc
    else
      { acc with
        editors := acc.editors ++ [(key, { id := acc.nextId, kind := widgetKindFor ty, seed := seedFor st.variables' key value })],
        nextId := acc.nextId + 1 }

/-- Source: `syncContent` of live_preview.js. The external parser's outcome
(the AST, or the thrown error's message) and the current instant are
explicit inputs; everything after the parse is the source's logic.
`variables` is never written by this function. -/
def syncContent (parseResult : Except String Ast) (now : Int) (st : LPState) : LPState :=
  let parsed : Option Ast :=
    match parseResult with
    | .ok t => some t
    | .error _ => none
  let types : Option Vars :=
    match parseResult with
    | .ok t => some (extract t [])
    | .error _ => none
  let err : Option String :=
    match parseResult with
    | .ok _ => none
    | .error m => some m
  let changed_page : Bool := decide (st.old_page ≠ some st.page)
  let acc : SyncAcc :=
    match types with
    | some tys => tys.foldl (syncStep st changed_page now) { nextId := st.nextId }
    | none => { nextId := st.nextId }
  { st with
    old_page := some st.page
    editors := acc.editors
    tags := acc.tags
    defaults := acc.defaults
    types := types
    parsed := parsed
    error := err
    nextId := acc.nextId }

/-- The page index a navigation lands on: the arithmetic of `changePage`
(lines 300-305). -/
def newPageOf (unit_defaults : List Page) (incr : Int) (page : Int) : Int :=
  let len : Int := unit_defaults.length
  let p : Int := if incr = -2 then 0 else if incr = 2 then len - 1 else page + incr
  if p < 0 then len - 1 else if p ≥ len then 0 else p

/-- `unit_defaults[p]` for a possibly out-of-range index. -/
def pageAt (unit_defaults : List Page) (i : Int) : Option Page :=
  if i < 0 then none else unit_defaults.get? i.toNat

/-- Source: the `changePage(incr)` handler of live_preview.js: recompute the
page index, reset the user overrides, select the new page's value set, and
re-run `syncContent` (the raw text is unchanged, so the parse outcome is the
same one the caller supplies). -/
def changePage (unit_defaults : List Page) (incr : Int) (parseResult : Except String Ast) (now : Int) (st : LPState) : LPState :=
  let p := newPageOf unit_defaults incr st.page
  syncContent parseResult now
    { st with page := p, variables' := [], current_page := pageAt unit_defaults p }

/-- Source: the `updateValue` input handler a widget registers (lines
230-237). `ty` is the entry captured by the closure; `valueAsNumber` and
`value` are the control's DOM state at event time. -/
def updateValue (ty : PInfo) (key : String) (valueAsNumber : Int) (value : String) (st : LPState) : LPState :=
  { st with
    variables' := aput st.variables' key (if mtruthy ty.is_date then Val.date valueAsNumber else Val.str value) }

/-- What `updateTranslation` places into the preview body: the error text,
nothing, or the merged value map handed to the external renderer. -/
inductive Preview where
  | errorText : String → Preview
  | empty : Preview
  | rendered : List (String × Val) → Preview
  deriving DecidableEq, Repr

/-- `Object.assign` on modelled objects: later sources overwrite in place or
append. -/
def jsAssign (target source : List (String × Val)) : List (String × Val) :=
  source.foldl (fun t kv => aput t kv.1 kv.2) target

/-- Source: `updateTranslation` of live_preview.js up to the delegation to
the external renderer: an error is the entire preview output; otherwise the
render map is `Object.assign({}, defaults, variables, tags)`. -/
def updateTranslation (st : LPState) : Preview :=
  match st.error with
  | some e => .errorText e
  | none =>
    match st.parsed with
    | none => .empty
    | some _ =>
      .rendered (jsAssign (jsAssign st.defaults st.variables') (st.tags.map (fun kv => (kv.1, Val.tagCb kv.2))))

/-- The closure state as `initLivePreview` sets it up before the first
`syncContent` run. -/
def initState (unit_defaults : List Page) : LPState :=
  { page := 0
    old_page := none
    current_page := pageAt unit_defaults 0
    variables' := []
    editors := []
    tags := []
    defaults := []
    types := none
    parsed := none
    error := none
    nextId := 0 }

/-! ## Association-list lemmas -/

def keysOf {α : Type} (l : List (String × α)) : List String := l.map Prod.fst

theorem alook_aput {α : Type} (l : List (String × α)) (k k' : String) (v : α) :
    alook (aput l k v) k' = if k = k' then some v else alook l k' := by
  induction l with
  | nil => simp [aput, alook]
  | cons hd tl ih =>
    obtain ⟨k0, v0⟩ := hd
    by_cases h0 : k0 = k
    · subst h0
      by_cases h1 : k0 = k'
      · subst h1; simp [aput, alook]
      · simp [aput, alook, h1]
    · by_cases h1 : k0 = k'
      · subst h1
        have : ¬ k = k0 := fun h => h0 h.symm
        simp [aput, alook, h0, this]
      · simp [aput, alook, h0, h1, ih]

theorem alook_append {α : Type} (l1 l2 : List (String × α)) (k : String) :
    alook (l1 ++ l2) k =
      match alook l1 k with
      | some v => some v
      | none => alook l2 k := by
  induction l1 with
  | nil => simp [alook]
  | cons hd tl ih =>
    by_cases h : hd.1 = k
    · simp [alook, h]
    · simpa [alook, h] using ih

theorem alook_mem {α : Type} {l : List (String × α)} {k : String} {v : α}
    (h : alook l k = some v) : (k, v) ∈ l := by
  induction l with
  | nil => simp [alook] at h
  | cons hd tl ih =>
    obtain ⟨a, b⟩ := hd
    by_cases h0 : a = k
    · subst h0
      simp [alook] at h
      subst h
      exact List.mem_cons_self _ _
    · simp [alook, h0] at h
      exact List.mem_cons_of_mem _ (ih h)

theorem alook_eq_none_iff {α : Type} (l : List (String × α)) (k : String) :
    alook l k = none ↔ k ∉ keysOf l := by
  induction l with
  | nil => simp [alook, keysOf]
  | cons hd tl ih =>
    obtain ⟨a, b⟩ := hd
    by_cases h : a = k
    · subst h
      simp [alook, keysOf]
    · have h' : ¬ k = a := fun hh => h hh.symm
      simp [alook, keysOf, h, h', ih]

theorem keysOf_aput {α : Type} (l : List (String × α)) (k : String) (v : α) :
    keysOf (aput l k v) = if k ∈ keysOf l then keysOf l else keysOf l ++ [k] := by
  induction l with
  | nil => simp [aput, keysOf]
  | cons hd tl ih =>
    obtain ⟨a, b⟩ := hd
    by_cases h : a = k
    · subst h
      simp [aput, keysOf]
    · have h' : ¬ k = a := fun hh => h hh.symm
      simp only [keysOf] at ih
      by_cases hk : k ∈ List.map Prod.fst tl
      · simp [aput, keysOf, h, h', hk, ih]
      · simp [aput, keysOf, h, h', hk, ih]

theorem nodup_keys_aput {α : Type} (l : List (String × α)) (k : String) (v : α)
    (h : (keysOf l).Nodup) : (keysOf (aput l k v)).Nodup := by
  rw [keysOf_aput]
  by_cases hk : k ∈ keysOf l
  · simpa [hk] using h
  · simp only [hk, if_false]
    simpa [List.nodup_append] using ⟨h, hk⟩

/-! ## Occurrence lists: the placeholder tokens a name meets, in traversal
order. The pair `(token[1], token[2])` is everything `stepData` reads. -/

mutual

def occs (name : String) : Ast → List (Option String × Arg)
  | .atom => []
  | .node ts => occsToks name ts

def occsToks (name : String) : Toks → List (Option String × Arg)
  | .nil => []
  | .cons t rest => occsTok name t ++ occsToks name rest

def occsTok (name : String) : Tok → List (Option String × Arg)
  | .lit _ => []
  | .ph n ty a2 a3 a4 =>
    if n = "#" then []
    else
      (if n = name then [(ty, a2)] else []) ++
        (occsArg name a2 ++ occsArg name a3 ++ occsArg name a4)

def occsArg (name : String) : Arg → List (Option String × Arg)
  | .absent => []
  | .obj es => occsBranches name es

def occsBranches (name : String) : Branches → List (Option String × Arg)
  | .nil => []
  | .cons _ t rest => occs name t ++ occsBranches name rest

end

/-- The entry update one occurrence performs: fetch or create, then
`stepData`. -/
def applyOcc (name : String) (cur : Option PInfo) (o : Option String × Arg) : Option PInfo :=
  some (stepData o.1 o.2 (cur.getD { name := name }))

/-- The entry an occurrence list leaves behind, starting from `cur`. -/
def applyOccs (name : String) (cur : Option PInfo) (l : List (Option String × Arg)) : Option PInfo :=
  l.foldl (applyOcc name) cur

theorem applyOccs_append (name : String) (cur : Option PInfo)
    (l1 l2 : List (Option String × Arg)) :
    applyOccs name cur (l1 ++ l2) = applyOccs name (applyOccs name cur l1) l2 := by
  simp [applyOccs, List.foldl_append]

mutual

/-- Characterization of `extract`: the entry stored for `name` is exactly
the fold of the per-occurrence update over the name's occurrence list, and
entries of other names are untouched by tokens that do not mention them. -/
theorem extract_occs (name : String) :
    ∀ (t : Ast) (vars : Vars),
      alook (extract t vars) name = applyOccs name (alook vars name) (occs name t)
  | .atom, vars => by simp [extract, occs, applyOccs]
  | .node ts, vars => by
      simpa [extract, occs] using extractToks_occs name ts vars

theorem extractToks_occs (name : String) :
    ∀ (ts : Toks) (vars : Vars),
      alook (extractToks ts vars) name = applyOccs name (alook vars name) (occsToks name ts)
  | .nil, vars => by simp [extractToks, occsToks, applyOccs]
  | .cons t rest, vars => by
      rw [extractToks, occsToks, applyOccs_append, ← extractTok_occs name t vars]
      exact extractToks_occs name rest (extractTok t vars)

theorem extractTok_occs (name : String) :
    ∀ (t : Tok) (vars : Vars),
      alook (extractTok t vars) name = applyOccs name (alook vars name) (occsTok name t)
  | .lit s, vars => by simp [extractTok, occsTok, applyOccs]
  | .ph n ty a2 a3 a4, vars => by
      by_cases hn : n = "#"
      · simp [extractTok, occsTok, hn, applyOccs]
      · rw [extractTok, occsTok]
        simp only [hn, if_false]
        rw [applyOccs_append, applyOccs_append, applyOccs_append]
        rw [extractArg_occs name a4 _, extractArg_occs name a3 _, extractArg_occs name a2 _]
        congr 1
        congr 1
        congr 1
        rw [alook_aput]
        by_cases hm : n = name
        · simp [hm, applyOccs, applyOcc]
        · simp [hm, applyOccs]

theorem extractArg_occs (name : String) :
    ∀ (a : Arg) (vars : Vars),
      alook (extractArg a vars) name = applyOccs name (alook vars name) (occsArg name a)
  | .absent, vars => by simp [extractArg, occsArg, applyOccs]
  | .obj es, vars => by
      simpa [extractArg, occsArg] using extractBranches_occs name es vars

theorem extractBranches_occs (name : String) :
    ∀ (es : Branches) (vars : Vars),
      alook (extractBranches es vars) name = applyOccs name (alook vars name) (occsBranches name es)
  | .nil, vars => by simp [extractBranches, occsBranches, applyOccs]
  | .cons k t rest, vars => by
      rw [extractBranches, occsBranches, applyOccs_append, ← extract_occs name t vars]
      exact extractBranches_occs name rest (extract t vars)

end

/-! ## Field projections of the per-occurrence update -/

theorem addKey_name (d : PInfo) (k : String) : (addKey d k).name = d.name := by
  unfold addKey; split <;> rfl

theorem addKey_type (d : PInfo) (k : String) : (addKey d k).type = d.type := by
  unfold addKey; split <;> rfl

theorem addKey_is_number (d : PInfo) (k : String) : (addKey d k).is_number = d.is_number := by
  unfold addKey; split <;> rfl

theorem addKey_is_date (d : PInfo) (k : String) : (addKey d k).is_date = d.is_date := by
  unfold addKey; split <;> rfl

theorem addKey_is_tag (d : PInfo) (k : String) : (addKey d k).is_tag = d.is_tag := by
  unfold addKey; split <;> rfl

theorem addKey_is_empty (d : PInfo) (k : String) : (addKey d k).is_empty = d.is_empty := by
  unfold addKey; split <;> rfl

theorem addKey_choices (d : PInfo) (k : String) : (addKey d k).choices = d.choices := by
  unfold addKey; split <;> rfl

theorem addKey_editor_type (d : PInfo) (k : String) : (addKey d k).editor_type = d.editor_type := by
  unfold addKey; split <;> rfl

/-- The kind-merge rule on the `type` field alone: take the occurrence's
kind when none is settled yet, upgrade a settled `date` against `time` (or
vice versa) to `datetime`, otherwise keep the settled kind. -/
def mergeKind (cur ty : Option String) : Option String :=
  if !strTruthy cur && strTruthy ty then ty
  else if (cur = some "date" ∧ ty = some "time")
      ∨ (cur = some "time" ∧ ty = some "date") then some "datetime"
  else cur

theorem stepKind_type (ty : Option String) (d : PInfo) :
    (stepKind ty d).type = mergeKind d.type ty := by
  unfold stepKind mergeKind
  split_ifs <;> simp [addKey_type]

theorem stepKind_is_number (ty : Option String) (d : PInfo) :
    (stepKind ty d).is_number = d.is_number := by
  unfold stepKind; split_ifs <;> simp [addKey_is_number]

theorem stepKind_is_date (ty : Option String) (d : PInfo) :
    (stepKind ty d).is_date = d.is_date := by
  unfold stepKind; split_ifs <;> simp [addKey_is_date]

theorem stepKind_is_tag (ty : Option String) (d : PInfo) :
    (stepKind ty d).is_tag = d.is_tag := by
  unfold stepKind; split_ifs <;> simp [addKey_is_tag]

theorem stepKind_is_empty (ty : Option String) (d : PInfo) :
    (stepKind ty d).is_empty = d.is_empty := by
  unfold stepKind; split_ifs <;> simp [addKey_is_empty]

theorem stepFlags_type (ty : Option String) (a2 : Arg) (d : PInfo) :
    (stepFlags ty a2 d).type = d.type := by
  by_cases h : ty = some TAG_TYPE <;>
    simp [stepFlags, h, addKey_type]

theorem stepFlags_is_number (ty : Option String) (a2 : Arg) (d : PInfo) :
    (stepFlags ty a2 d).is_number = update_maybe_value (typeIn NUMERIC_TYPES ty) d.is_number := by
  by_cases h : ty = some TAG_TYPE <;>
    simp [stepFlags, h, addKey_is_number]

theorem stepFlags_is_date (ty : Option String) (a2 : Arg) (d : PInfo) :
    (stepFlags ty a2 d).is_date = update_maybe_value (typeIn DATE_TYPES ty) d.is_date := by
  by_cases h : ty = some TAG_TYPE <;>
    simp [stepFlags, h, addKey_is_date, addKey_is_number]

theorem stepFlags_is_tag (ty : Option String) (a2 : Arg) (d : PInfo) :
    (stepFlags ty a2 d).is_tag = update_maybe_value (decide (ty = some TAG_TYPE)) d.is_tag := by
  by_cases h : ty = some TAG_TYPE <;>
    simp [stepFlags, h, addKey_is_tag, addKey_is_date, addKey_is_number]

theorem stepFlags_is_empty (ty : Option String) (a2 : Arg) (d : PInfo) :
    (stepFlags ty a2 d).is_empty =
      if ty = some TAG_TYPE then
        update_maybe_value (childrenEmpty (argChildren a2)) d.is_empty
      else d.is_empty := by
  by_cases h : ty = some TAG_TYPE <;>
    simp [stepFlags, h, addKey_is_empty, addKey_is_tag, addKey_is_date, addKey_is_number]

theorem stepChoices_type (ty : Option String) (a2 : Arg) (d : PInfo) :
    (stepChoices ty a2 d).type = d.type := by
  unfold stepChoices; split_ifs <;> try rfl
  split <;> simp [addKey_type]

theorem stepChoices_is_number (ty : Option String) (a2 : Arg) (d : PInfo) :
    (stepChoices ty a2 d).is_number = d.is_number := by
  unfold stepChoices; split_ifs <;> try rfl
  split <;> simp [addKey_is_number]

theorem stepChoices_is_date (ty : Option String) (a2 : Arg) (d : PInfo) :
    (stepChoices ty a2 d).is_date = d.is_date := by
  unfold stepChoices; split_ifs <;> try rfl
  split <;> simp [addKey_is_date]

theorem stepChoices_is_tag (ty : Option String) (a2 : Arg) (d : PInfo) :
    (stepChoices ty a2 d).is_tag = d.is_tag := by
  unfold stepChoices; split_ifs <;> try rfl
  split <;> simp [addKey_is_tag]

theorem stepChoices_is_empty (ty : Option String) (a2 : Arg) (d : PInfo) :
    (stepChoices ty a2 d).is_empty = d.is_empty := by
  unfold stepChoices; split_ifs <;> try rfl
  split <;> simp [addKey_is_empty]

theorem stepEditor_type (d : PInfo) : (stepEditor d).type = d.type := by
  unfold stepEditor
  split <;> [skip; split_ifs] <;> simp [addKey_type]

theorem stepEditor_is_number (d : PInfo) : (stepEditor d).is_number = d.is_number := by
  unfold stepEditor
  split <;> [skip; split_ifs] <;> simp [addKey_is_number]

theorem stepEditor_is_date (d : PInfo) : (stepEditor d).is_date = d.is_date := by
  unfold stepEditor
  split <;> [skip; split_ifs] <;> simp [addKey_is_date]

theorem stepEditor_is_tag (d : PInfo) : (stepEditor d).is_tag = d.is_tag := by
  unfold stepEditor
  split <;> [skip; split_ifs] <;> simp [addKey_is_tag]

theorem stepEditor_is_empty (d : PInfo) : (stepEditor d).is_empty = d.is_empty := by
  unfold stepEditor
  split <;> [skip; split_ifs] <;> simp [addKey_is_empty]

theorem stepData_type (ty : Option String) (a2 : Arg) (d : PInfo) :
    (stepData ty a2 d).type = mergeKind d.type ty := by
  unfold stepData
  rw [stepEditor_type, stepChoices_type, stepFlags_type, stepKind_type]

theorem stepData_is_number (ty : Option String) (a2 : Arg) (d : PInfo) :
    (stepData ty a2 d).is_number = update_maybe_value (typeIn NUMERIC_TYPES ty) d.is_number := by
  unfold stepData
  rw [stepEditor_is_number, stepChoices_is_number, stepFlags_is_number, stepKind_is_number]

theorem stepData_is_date (ty : Option String) (a2 : Arg) (d : PInfo) :
    (stepData ty a2 d).is_date = update_maybe_value (typeIn DATE_TYPES ty) d.is_date := by
  unfold stepData
  rw [stepEditor_is_date, stepChoices_is_date, stepFlags_is_date, stepKind_is_date]

theorem stepData_is_tag (ty : Option String) (a2 : Arg) (d : PInfo) :
    (stepData ty a2 d).is_tag = update_maybe_value (decide (ty = some TAG_TYPE)) d.is_tag := by
  unfold stepData
  rw [stepEditor_is_tag, stepChoices_is_tag, stepFlags_is_tag, stepKind_is_tag]

theorem stepData_is_empty (ty : Option String) (a2 : Arg) (d : PInfo) :
    (stepData ty a2 d).is_empty =
      if ty = some TAG_TYPE then
        update_maybe_value (childrenEmpty (argChildren a2)) d.is_empty
      else d.is_empty := by
  unfold stepData
  rw [stepEditor_is_empty, stepChoices_is_empty, stepFlags_is_empty, stepKind_is_empty]

/-! ## Folded characterizations of kind and flags -/

theorem applyOccs_some (name : String) (l : List (Option String × Arg)) :
    ∀ (cur : Option PInfo), cur.isSome → (applyOccs name cur l).isSome := by
  induction l with
  | nil => intro cur h; simpa [applyOccs] using h
  | cons o rest ih =>
    intro cur _
    simp only [applyOccs, List.foldl_cons]
    exact ih (applyOcc name cur o) (by simp [applyOcc])

theorem applyOccs_isSome_of_ne_nil (name : String) (l : List (Option String × Arg))
    (h : l ≠ []) (cur : Option PInfo) : (applyOccs name cur l).isSome := by
  match l, h with
  | o :: rest, _ =>
    simp only [applyOccs, List.foldl_cons]
    exact applyOccs_some name rest (applyOcc name cur o) (by simp [applyOcc])

theorem applyOccs_type (name : String) (l : List (Option String × Arg)) :
    ∀ (cur : Option PInfo),
      ((applyOccs name cur l).getD { name := name }).type
        = (l.map Prod.fst).foldl mergeKind ((cur.getD { name := name }).type) := by
  induction l with
  | nil => intro cur; simp [applyOccs]
  | cons o rest ih =>
    intro cur
    simp only [applyOccs, List.foldl_cons, List.map_cons] at ih ⊢
    rw [ih (applyOcc name cur o)]
    congr 1
    simp [applyOcc, stepData_type]

theorem applyOccs_flag (name : String) (proj : PInfo → MaybeVal)
    (upd : (Option String × Arg) → MaybeVal → MaybeVal)
    (hstep : ∀ (o : Option String × Arg) (d : PInfo), proj (stepData o.1 o.2 d) = upd o (proj d))
    (l : List (Option String × Arg)) :
    ∀ (cur : Option PInfo),
      proj ((applyOccs name cur l).getD { name := name })
        = l.foldl (fun m o => upd o m) (proj (cur.getD { name := name })) := by
  induction l with
  | nil => intro cur; simp [applyOccs]
  | cons o rest ih =>
    intro cur
    simp only [applyOccs, List.foldl_cons] at ih ⊢
    rw [ih (applyOcc name cur o)]
    congr 1
    simp [applyOcc, hstep]

theorem foldl_upd_null {β : Type} (upd : β → MaybeVal → MaybeVal)
    (habs : ∀ b, upd b .null = .null) (l : List β) :
    l.foldl (fun m b => upd b m) .null = .null := by
  induction l with
  | nil => rfl
  | cons b rest ih => simpa [habs] using ih

theorem update_maybe_value_null (v : Bool) : update_maybe_value v .null = .null := by
  cases v <;> decide

/-! ## Key discipline of the extractor -/

mutual

theorem extract_nodup : ∀ (t : Ast) (vars : Vars),
    (keysOf vars).Nodup → (keysOf (extract t vars)).Nodup
  | .atom, vars, h => by simpa [extract] using h
  | .node ts, vars, h => extractToks_nodup ts vars h

theorem extractToks_nodup : ∀ (ts : Toks) (vars : Vars),
    (keysOf vars).Nodup → (keysOf (extractToks ts vars)).Nodup
  | .nil, vars, h => by simpa [extractToks] using h
  | .cons t rest, vars, h =>
      extractToks_nodup rest (extractTok t vars) (extractTok_nodup t vars h)

theorem extractTok_nodup : ∀ (t : Tok) (vars : Vars),
    (keysOf vars).Nodup → (keysOf (extractTok t vars)).Nodup
  | .lit s, vars, h => by simpa [extractTok] using h
  | .ph n ty a2 a3 a4, vars, h => by
      by_cases hn : n = "#"
      · simpa [extractTok, hn] using h
      · rw [extractTok]
        simp only [hn, if_false]
        exact extractArg_nodup a4 _ (extractArg_nodup a3 _ (extractArg_nodup a2 _
          (nodup_keys_aput vars n _ h)))

theorem extractArg_nodup : ∀ (a : Arg) (vars : Vars),
    (keysOf vars).Nodup → (keysOf (extractArg a vars)).Nodup
  | .absent, vars, h => by simpa [extractArg] using h
  | .obj es, vars, h => extractBranches_nodup es vars h

theorem extractBranches_nodup : ∀ (es : Branches) (vars : Vars),
    (keysOf vars).Nodup → (keysOf (extractBranches es vars)).Nodup
  | .nil, vars, h => by simpa [extractBranches] using h
  | .cons k t rest, vars, h =>
      extractBranches_nodup rest (extract t vars) (extract_nodup t vars h)

end

/-! ## Per-key contributions of the reconciliation loop -/

theorem alook_append_single_ne {α : Type} (l : List (String × α)) (k k' : String) (v : α)
    (h : k ≠ k') : alook (l ++ [(k, v)]) k' = alook l k' := by
  rw [alook_append]
  cases alook l k' <;> simp [alook, h]

theorem alook_append_single_self {α : Type} (l : List (String × α)) (k : String) (v : α)
    (h : alook l k = none) : alook (l ++ [(k, v)]) k = some v := by
  rw [alook_append, h]
  simp [alook]

/-- The widget, if any, the loop body binds to one key; `nid` is the value
of the `editor_id` counter when the key is processed. -/
def stepEditors (st : LPState) (changed_page : Bool) (now : Int) (key : String) (ty : PInfo) (nid : Nat) : Option Widget :=
  if carries st changed_page key ty then alook st.editors key
  else if mtruthy ty.is_tag then none
  else if ty.editor_type = some .disabled then none
  else some { id := nid, kind := widgetKindFor ty,
              seed := seedFor st.variables' key (computeDefault st.current_page key ty now) }

/-- The tag callback, if any, the loop body binds to one key. -/
def stepTags (st : LPState) (changed_page : Bool) (key : String) (ty : PInfo) (nid : Nat) : Option Nat :=
  if carries st changed_page key ty then alook st.tags key
  else if mtruthy ty.is_tag then some nid
  else none

/-- The default, if any, the loop body records for one key. -/
def stepDefaults (st : LPState) (changed_page : Bool) (now : Int) (key : String) (ty : PInfo) : Option Val :=
  if carries st changed_page key ty then
    (alook st.defaults key).bind (fun v => if valTruthy v then some v else none)
  else if mtruthy ty.is_tag then none
  else some (computeDefault st.current_page key ty now)

theorem syncStep_editors_ne (st : LPState) (cp : Bool) (now : Int) (acc : SyncAcc)
    (key k' : String) (ty : PInfo) (h : key ≠ k') :
    alook (syncStep st cp now acc (key, ty)).editors k' = alook acc.editors k' := by
  unfold syncStep
  by_cases hc : carries st cp key ty
  · simp only [hc, if_true]
    cases alook st.editors key <;> cases alook st.tags key <;> cases hd : alook st.defaults key <;>
      simp [alook_append_single_ne _ _ _ _ h] <;> split_ifs <;>
      simp [alook_append_single_ne _ _ _ _ h]
  · simp only [hc, if_false]
    by_cases htag : mtruthy ty.is_tag
    · simp [htag]
    · simp only [htag, if_false, Bool.false_eq_true]
      split_ifs with hdis
      · simp
      · simp [alook_append_single_ne _ _ _ _ h]

theorem syncStep_tags_ne (st : LPState) (cp : Bool) (now : Int) (acc : SyncAcc)
    (key k' : String) (ty : PInfo) (h : key ≠ k') :
    alook (syncStep st cp now acc (key, ty)).tags k' = alook acc.tags k' := by
  unfold syncStep
  by_cases hc : carries st cp key ty
  · simp only [hc, if_true]
    cases alook st.editors key <;> cases alook st.tags key <;> cases hd : alook st.defaults key <;>
      simp [alook_append_single_ne _ _ _ _ h] <;> split_ifs <;>
      simp [alook_append_single_ne _ _ _ _ h]
  · simp only [hc, if_false]
    by_cases htag : mtruthy ty.is_tag
    · simp [htag, alook_append_single_ne _ _ _ _ h]
    · simp only [htag, if_false, Bool.false_eq_true]
      split_ifs with hdis
      · simp
      · simp

theorem syncStep_defaults_ne (st : LPState) (cp : Bool) (now : Int) (acc : SyncAcc)
    (key k' : String) (ty : PInfo) (h : key ≠ k') :
    alook (syncStep st cp now acc (key, ty)).defaults k' = alook acc.defaults k' := by
  unfold syncStep
  by_cases hc : carries st cp key ty
  · simp only [hc, if_true]
    cases alook st.editors key <;> cases alook st.tags key <;> cases hd : alook st.defaults key <;>
      simp [alook_append_single_ne _ _ _ _ h] <;> split_ifs <;>
      simp [alook_append_single_ne _ _ _ _ h]
  · simp only [hc, if_false]
    by_cases htag : mtruthy ty.is_tag
    · simp [htag]
    · simp only [htag, if_false, Bool.false_eq_true]
      split_ifs with hdis
      · simp [alook_append_single_ne _ _ _ _ h]
      · simp [alook_append_single_ne _ _ _ _ h]

theorem syncStep_editors_self (st : LPState) (cp : Bool) (now : Int) (acc : SyncAcc)
    (key : String) (ty : PInfo) (h0 : alook acc.editors key = none) :
    alook (syncStep st cp now acc (key, ty)).editors key = stepEditors st cp now key ty acc.nextId := by
  unfold syncStep stepEditors
  by_cases hc : carries st cp key ty
  · simp only [hc, if_true]
    cases he : alook st.editors key <;> cases alook st.tags key <;> cases hd : alook st.defaults key <;>
      simp [alook_append_single_self _ _ _ h0, h0] <;> split_ifs <;>
      simp [alook_append_single_self _ _ _ h0, h0]
  · simp only [hc, if_false]
    by_cases htag : mtruthy ty.is_tag
    · simp [htag, h0]
    · simp only [htag, if_false, Bool.false_eq_true]
      split_ifs with hdis
      · simp [h0]
      · simp [alook_append_single_self _ _ _ h0]

theorem syncStep_tags_self (st : LPState) (cp : Bool) (now : Int) (acc : SyncAcc)
    (key : String) (ty : PInfo) (h0 : alook acc.tags key = none) :
    alook (syncStep st cp now acc (key, ty)).tags key = stepTags st cp key ty acc.nextId := by
  unfold syncStep stepTags
  by_cases hc : carries st cp key ty
  · simp only [hc, if_true]
    cases alook st.editors key <;> cases ht : alook st.tags key <;> cases hd : alook st.defaults key <;>
      simp [alook_append_single_self _ _ _ h0, h0] <;> split_ifs <;>
      simp [alook_append_single_self _ _ _ h0, h0]
  · simp only [hc, if_false]
    by_cases htag : mtruthy ty.is_tag
    · simp [htag, alook_append_single_self _ _ _ h0]
    · simp only [htag, if_false, Bool.false_eq_true]
      split_ifs with hdis
      · simp [h0]
      · simp [h0]

theorem syncStep_defaults_self (st : LPState) (cp : Bool) (now : Int) (acc : SyncAcc)
    (key : String) (ty : PInfo) (h0 : alook acc.defaults key = none) :
    alook (syncStep st cp now acc (key, ty)).defaults key = stepDefaults st cp now key ty := by
  unfold syncStep stepDefaults
  by_cases hc : carries st cp key ty
  · simp only [hc, if_true]
    cases alook st.editors key <;> cases alook st.tags key <;> cases hd : alook st.defaults key <;>
      simp [alook_append_single_self _ _ _ h0, h0] <;> split_ifs <;>
      simp [alook_append_single_self _ _ _ h0, h0]
  · simp only [hc, if_false]
    by_cases htag : mtruthy ty.is_tag
    · simp [htag, h0]
    · simp only [htag, if_false, Bool.false_eq_true]
      split_ifs with hdis
      · simp [alook_append_single_self _ _ _ h0]
      · simp [alook_append_single_self _ _ _ h0]

/-! ## Lookup through the whole reconciliation loop -/

theorem foldl_syncStep_preserve (st : LPState) (cp : Bool) (now : Int) (k : String) :
    ∀ (l : List (String × PInfo)) (acc : SyncAcc), k ∉ keysOf l →
      alook (l.foldl (syncStep st cp now) acc).editors k = alook acc.editors k ∧
      alook (l.foldl (syncStep st cp now) acc).tags k = alook acc.tags k ∧
      alook (l.foldl (syncStep st cp now) acc).defaults k = alook acc.defaults k := by
  intro l
  induction l with
  | nil => intro acc _; exact ⟨rfl, rfl, rfl⟩
  | cons kv rest ih =>
    intro acc hk
    obtain ⟨k0, ty0⟩ := kv
    have hne : k0 ≠ k := by
      intro hh
      exact hk (by simp [keysOf, hh])
    have hrest : k ∉ keysOf rest := by
      intro hh
      exact hk (by simp [keysOf] at hh ⊢; right; exact hh)
    obtain ⟨ih1, ih2, ih3⟩ := ih (syncStep st cp now acc (k0, ty0)) hrest
    refine ⟨?_, ?_, ?_⟩
    · rw [List.foldl_cons] at *
      rw [ih1, syncStep_editors_ne st cp now acc k0 k ty0 hne]
    · rw [List.foldl_cons] at *
      rw [ih2, syncStep_tags_ne st cp now acc k0 k ty0 hne]
    · rw [List.foldl_cons] at *
      rw [ih3, syncStep_defaults_ne st cp now acc k0 k ty0 hne]

theorem foldl_syncStep_lookup (st : LPState) (cp : Bool) (now : Int) :
    ∀ (l : List (String × PInfo)) (acc : SyncAcc) (k : String) (ty : PInfo),
      (keysOf l).Nodup → alook l k = some ty →
      alook acc.editors k = none → alook acc.tags k = none → alook acc.defaults k = none →
      ∃ nid,
        alook (l.foldl (syncStep st cp now) acc).editors k = stepEditors st cp now k ty nid ∧
        alook (l.foldl (syncStep st cp now) acc).tags k = stepTags st cp k ty nid ∧
        alook (l.foldl (syncStep st cp now) acc).defaults k = stepDefaults st cp now k ty := by
  intro l
  induction l with
  | nil => intro acc k ty _ hl; simp [alook] at hl
  | cons kv rest ih =>
    intro acc k ty hnd hl he ht hd
    obtain ⟨k0, ty0⟩ := kv
    by_cases h0 : k0 = k
    · subst h0
      have hty : ty0 = ty := by simpa [alook] using hl
      subst hty
      have hnd2 : (k0 :: keysOf rest).Nodup := hnd
      have hkrest : k0 ∉ keysOf rest := (List.nodup_cons.mp hnd2).1
      obtain ⟨p1, p2, p3⟩ := foldl_syncStep_preserve st cp now k0 rest
        (syncStep st cp now acc (k0, ty0)) hkrest
      refine ⟨acc.nextId, ?_, ?_, ?_⟩
      · rw [List.foldl_cons, p1, syncStep_editors_self st cp now acc k0 ty0 he]
      · rw [List.foldl_cons, p2, syncStep_tags_self st cp now acc k0 ty0 ht]
      · rw [List.foldl_cons, p3, syncStep_defaults_self st cp now acc k0 ty0 hd]
    · have hl' : alook rest k = some ty := by simpa [alook, h0] using hl
      have hnd2 : (k0 :: keysOf rest).Nodup := hnd
      have hnd' : (keysOf rest).Nodup := (List.nodup_cons.mp hnd2).2
      have he' : alook (syncStep st cp now acc (k0, ty0)).editors k = none := by
        rw [syncStep_editors_ne st cp now acc k0 k ty0 h0]; exact he
      have ht' : alook (syncStep st cp now acc (k0, ty0)).tags k = none := by
        rw [syncStep_tags_ne st cp now acc k0 k ty0 h0]; exact ht
      have hd' : alook (syncStep st cp now acc (k0, ty0)).defaults k = none := by
        rw [syncStep_defaults_ne st cp now acc k0 k ty0 h0]; exact hd
      obtain ⟨nid, q1, q2, q3⟩ := ih (syncStep st cp now acc (k0, ty0)) k ty hnd' hl' he' ht' hd'
      exact ⟨nid, by rw [List.foldl_cons]; exact q1,
        by rw [List.foldl_cons]; exact q2, by rw [List.foldl_cons]; exact q3⟩

/-- Lookup characterization of one `syncContent` run on a successful parse:
for every extracted key, the new widget, tag callback and default are the
per-key contributions of the loop body, and the user overrides are
untouched. -/
theorem syncContent_lookup (t : Ast) (now : Int) (st : LPState) (k : String) (ty : PInfo)
    (hty : alook (extract t []) k = some ty) :
    ∃ nid,
      alook (syncContent (.ok t) now st).editors k
          = stepEditors st (decide (st.old_page ≠ some st.page)) now k ty nid ∧
      alook (syncContent (.ok t) now st).tags k
          = stepTags st (decide (st.old_page ≠ some st.page)) k ty nid ∧
      alook (syncContent (.ok t) now st).defaults k
          = stepDefaults st (decide (st.old_page ≠ some st.page)) now k ty := by
  have hnd : (keysOf (extract t [])).Nodup := extract_nodup t [] (by simp [keysOf])
  obtain ⟨nid, q1, q2, q3⟩ := foldl_syncStep_lookup st
    (decide (st.old_page ≠ some st.page)) now (extract t []) { nextId := st.nextId } k ty
    hnd hty rfl rfl rfl
  exact ⟨nid, q1, q2, q3⟩

theorem syncContent_variables (pr : Except String Ast) (now : Int) (st : LPState) :
    (syncContent pr now st).variables' = st.variables' := by
  cases pr <;> rfl

/-! ## Remaining projections: editor_type through one occurrence -/

theorem stepKind_editor_type (ty : Option String) (d : PInfo) :
    (stepKind ty d).editor_type = d.editor_type := by
  unfold stepKind; split_ifs <;> simp [addKey_editor_type]

theorem stepFlags_editor_type (ty : Option String) (a2 : Arg) (d : PInfo) :
    (stepFlags ty a2 d).editor_type = d.editor_type := by
  by_cases h : ty = some TAG_TYPE <;>
    simp [stepFlags, h, addKey_editor_type]

theorem stepChoices_editor_type (ty : Option String) (a2 : Arg) (d : PInfo) :
    (stepChoices ty a2 d).editor_type = d.editor_type := by
  unfold stepChoices; split_ifs <;> try rfl
  split <;> simp [addKey_editor_type]

theorem stepEditor_editor_type (d : PInfo) :
    (stepEditor d).editor_type =
      match inputTypeOf d.type with
      | some e => some (.str e)
      | none =>
        if mtruthy d.is_number then some (.str "number")
        else if mtruthy d.is_date then d.type.map EditorType.str
        else if mtruthy d.is_tag && mtruthy d.is_empty then some .disabled
        else d.editor_type := by
  unfold stepEditor
  split <;> [simp [addKey_editor_type]; (split_ifs <;> simp [addKey_editor_type])]

/-- The final `editor_type` after one occurrence, in terms of the merged
fields: the per-occurrence classification chain, keeping the previous
answer when no branch fires. -/
theorem stepData_editor_type (ty : Option String) (a2 : Arg) (d : PInfo) :
    (stepData ty a2 d).editor_type =
      (let t' := mergeKind d.type ty
       let n' := update_maybe_value (typeIn NUMERIC_TYPES ty) d.is_number
       let dt' := update_maybe_value (typeIn DATE_TYPES ty) d.is_date
       let tg' := update_maybe_value (decide (ty = some TAG_TYPE)) d.is_tag
       let em' := if ty = some TAG_TYPE then
           update_maybe_value (childrenEmpty (argChildren a2)) d.is_empty
         else d.is_empty
       match inputTypeOf t' with
       | some e => some (.str e)
       | none =>
         if mtruthy n' then some (.str "number")
         else if mtruthy dt' then t'.map EditorType.str
         else if mtruthy tg' && mtruthy em' then some .disabled
         else d.editor_type) := by
  unfold stepData
  rw [stepEditor_editor_type]
  rw [stepChoices_type, stepFlags_type, stepKind_type]
  rw [stepChoices_is_number, stepFlags_is_number, stepKind_is_number]
  rw [stepChoices_is_date, stepFlags_is_date, stepKind_is_date]
  rw [stepChoices_is_tag, stepFlags_is_tag, stepKind_is_tag]
  rw [stepChoices_is_empty, stepFlags_is_empty, stepKind_is_empty]
  rw [stepChoices_editor_type, stepFlags_editor_type, stepKind_editor_type]

/-! ## Claim-side vocabulary: the editor kinds of the spec's classifier -/

/-- Editor kinds in the spec's vocabulary (section 4.2). -/
inductive EKind where
  | date : String → EKind
  | numeric : EKind
  | selection : EKind
  | suppressed : EKind
  | plain : EKind
  | other : String → EKind
  deriving DecidableEq, Repr

/-- Modelled from the spec: the fixed precedence rules of section 4.2
applied once to an entry's fully merged kind and flags. -/
def classify (d : PInfo) : EKind :=
  if d.type = some "date" ∨ d.type = some "time" ∨ d.type = some "datetime" then
    .date (d.type.getD "")
  else if d.type = some "duration" then .numeric
  else if d.type = some "select" then .selection
  else if d.is_number = .val true then .numeric
  else if d.is_date = .val true then .date (d.type.getD "")
  else if d.is_tag = .val true ∧ d.is_empty = .val true then .suppressed
  else .plain

/-- Decoding of the code's stored `editor_type` into the spec's editor-kind
vocabulary (an absent `editor_type` leaves a plain text input; `false`
suppresses the control). -/
def editorKindOf : Option EditorType → EKind
  | none => .plain
  | some .disabled => .suppressed
  | some (.str s) =>
    if s = "number" then .numeric
    else if s = "select" then .selection
    else if s = "date" then .date "date"
    else if s = "time" then .date "time"
    else if s = "datetime-local" then .date "datetime"
    else .other s

/-- On an entry built from a single occurrence, the code's incremental
classification coincides with the spec's `classify` on the merged entry. -/
theorem stepData_fresh_classify (name : String) (ty : Option String) (a2 : Arg) :
    editorKindOf (stepData ty a2 { name := name }).editor_type
      = classify (stepData ty a2 { name := name }) := by
  have htype := stepData_type ty a2 { name := name }
  have hnum := stepData_is_number ty a2 { name := name }
  have hdate := stepData_is_date ty a2 { name := name }
  have htag := stepData_is_tag ty a2 { name := name }
  have hempty := stepData_is_empty ty a2 { name := name }
  have hed := stepData_editor_type ty a2 { name := name }
  unfold classify
  rw [htype, hnum, hdate, htag, hempty, hed]
  generalize childrenEmpty (argChildren a2) = c
  cases ty with
  | none => cases c <;> (dsimp only; decide)
  | some s =>
    by_cases h1 : s = ""
    · subst h1; cases c <;> (dsimp only; decide)
    by_cases h2 : s = "date"
    · subst h2; cases c <;> (dsimp only; decide)
    by_cases h3 : s = "time"
    · subst h3; cases c <;> (dsimp only; decide)
    by_cases h4 : s = "datetime"
    · subst h4; cases c <;> (dsimp only; decide)
    by_cases h5 : s = "duration"
    · subst h5; cases c <;> (dsimp only; decide)
    by_cases h6 : s = "select"
    · subst h6; cases c <;> (dsimp only; decide)
    by_cases h7 : s = "number"
    · subst h7; cases c <;> (dsimp only; decide)
    by_cases h8 : s = "plural"
    · subst h8; cases c <;> (dsimp only; decide)
    by_cases h9 : s = "selectordinal"
    · subst h9; cases c <;> (dsimp only; decide)
    by_cases h10 : s = "spellout"
    · subst h10; cases c <;> (dsimp only; decide)
    by_cases h11 : s = TAG_TYPE
    · subst h11; cases c <;> (dsimp only; decide)
    simp only [TAG_TYPE] at h11
    cases c <;>
      simp [strTruthy, typeIn, inputTypeOf, INPUT_TYPES, mergeKind, update_maybe_value,
        mtruthy, editorKindOf, classify, NUMERIC_TYPES, DATE_TYPES, TAG_TYPE,
        h1, h2, h3, h4, h5, h6, h7, h8, h9, h10, h11]

/-! ## Concrete example inputs -/

/-- The message `"{x, number} {x}"`: one occurrence with kind `number`, one
bare occurrence. -/
def exNumBare : Ast :=
  .node (.cons (.ph "x" (some "number") .absent .absent .absent)
    (.cons (.ph "x" none .absent .absent .absent) .nil))

/-- The message `"{x}"`: a single bare occurrence. -/
def exBare : Ast :=
  .node (.cons (.ph "x" none .absent .absent .absent) .nil)

/-- The message `"{x, number} {x, date} {x, time}"`. -/
def exNumDateTime : Ast :=
  .node (.cons (.ph "x" (some "number") .absent .absent .absent)
    (.cons (.ph "x" (some "date") .absent .absent .absent)
      (.cons (.ph "x" (some "time") .absent .absent .absent) .nil)))

/-- The message `"{x, duration}"`. -/
def exDuration : Ast :=
  .node (.cons (.ph "x" (some "duration") .absent .absent .absent) .nil)

/-- The message `"{x, date}"`. -/
def exDate : Ast :=
  .node (.cons (.ph "x" (some "date") .absent .absent .absent) .nil)

/-- The message `"{x, number}"`. -/
def exNum : Ast :=
  .node (.cons (.ph "x" (some "number") .absent .absent .absent) .nil)

/-! ## C9: extraction totality -/

/-- C9. Extraction totality: `extract` is a total function of the embedded
input domain (every equation of its mutual recursion is structural, so a
result exists for every tree), and on a non-sequence input (`Ast.atom`, the
image of every non-array JavaScript value) it returns its accumulator
unchanged, exactly as `if (!Array.isArray(ast)) return variables` does. -/
theorem c9_extract_total :
    (∀ (t : Ast) (vars : Vars), ∃ out, extract t vars = out) ∧
    (∀ (vars : Vars), extract Ast.atom vars = vars) :=
  ⟨fun t vars => ⟨extract t vars, rfl⟩, fun _ => rfl⟩

/-! ## C10: null is absorbing in the flag merge -/

theorem extract_flag_null (proj : PInfo → MaybeVal)
    (upd : (Option String × Arg) → MaybeVal → MaybeVal)
    (hstep : ∀ (o : Option String × Arg) (d : PInfo), proj (stepData o.1 o.2 d) = upd o (proj d))
    (habs : ∀ o, upd o .null = .null)
    (t : Ast) (name : String) (vars : Vars) (d : PInfo)
    (hd : alook vars name = some d) (hnull : proj d = .null) :
    (alook (extract t vars) name).map proj = some .null := by
  rw [extract_occs name t vars, hd]
  obtain ⟨x, hx⟩ := Option.isSome_iff_exists.mp
    (applyOccs_some name (occs name t) (some d) (by simp))
  have hflag := applyOccs_flag name proj upd hstep (occs name t) (some d)
  rw [hx] at hflag
  simp only [Option.getD_some] at hflag
  rw [hx]
  simp only [Option.map_some']
  rw [hflag, hnull, foldl_upd_null upd habs]

/-- C10. `update_maybe_value(v, null) = null` for every boolean `v`, and
therefore a flag that has collapsed to `unknown` for a name stays `unknown`
through the rest of the same extraction, whichever of the four tri-state
flags it is. -/
theorem c10_null_absorbing :
    (∀ (v : Bool), update_maybe_value v .null = .null) ∧
    (∀ (t : Ast) (name : String) (vars : Vars) (d : PInfo),
      alook vars name = some d →
      (d.is_number = .null → (alook (extract t vars) name).map PInfo.is_number = some .null) ∧
      (d.is_date = .null → (alook (extract t vars) name).map PInfo.is_date = some .null) ∧
      (d.is_tag = .null → (alook (extract t vars) name).map PInfo.is_tag = some .null) ∧
      (d.is_empty = .null → (alook (extract t vars) name).map PInfo.is_empty = some .null)) := by
  refine ⟨update_maybe_value_null, fun t name vars d hd => ⟨?_, ?_, ?_, ?_⟩⟩
  · exact fun hnull => extract_flag_null PInfo.is_number
      (fun o m => update_maybe_value (typeIn NUMERIC_TYPES o.1) m)
      (fun o dd => stepData_is_number o.1 o.2 dd)
      (fun o => update_maybe_value_null _) t name vars d hd hnull
  · exact fun hnull => extract_flag_null PInfo.is_date
      (fun o m => update_maybe_value (typeIn DATE_TYPES o.1) m)
      (fun o dd => stepData_is_date o.1 o.2 dd)
      (fun o => update_maybe_value_null _) t name vars d hd hnull
  · exact fun hnull => extract_flag_null PInfo.is_tag
      (fun o m => update_maybe_value (decide (o.1 = some TAG_TYPE)) m)
      (fun o dd => stepData_is_tag o.1 o.2 dd)
      (fun o => update_maybe_value_null _) t name vars d hd hnull
  · exact fun hnull => extract_flag_null PInfo.is_empty
      (fun o m => if o.1 = some TAG_TYPE then
          update_maybe_value (childrenEmpty (argChildren o.2)) m else m)
      (fun o dd => stepData_is_empty o.1 o.2 dd)
      (fun o => by
        by_cases h : o.1 = some TAG_TYPE <;> simp [h, update_maybe_value_null])
      t name vars d hd hnull

/-- An entry for `x` with every flag already collapsed to `unknown`. -/
def infoNullX : PInfo :=
  { name := "x", is_number := .null, is_date := .null,
    is_tag := .null, is_empty := .null }

/-- A mid-extraction accumulator holding that entry. -/
def exVarsNull : Vars := [("x", infoNullX)]

theorem c10_null_absorbing_witness :
    alook exVarsNull "x" = some infoNullX ∧
    (alook (extract exNum exVarsNull) "x").map PInfo.is_number = some .null :=
  ⟨by decide,
    (c10_null_absorbing.2 exNum "x" exVarsNull infoNullX (by decide)).1 (by decide)⟩

/-! ## C3: the tri-state flag merge -/

/-- C3. Each of the four flags is recomputed on every occurrence and merged
with `update_maybe_value`; a settled boolean that meets a different
observation collapses to `unknown`; and concretely the message
`"{x, number} {x}"` leaves `is_number` equal to `null`, neither true nor
false. -/
theorem c3_tristate_merge :
    (∀ (d : PInfo) (ty : Option String) (a2 : Arg),
      (stepData ty a2 d).is_number = update_maybe_value (typeIn NUMERIC_TYPES ty) d.is_number ∧
      (stepData ty a2 d).is_date = update_maybe_value (typeIn DATE_TYPES ty) d.is_date ∧
      (stepData ty a2 d).is_tag = update_maybe_value (decide (ty = some TAG_TYPE)) d.is_tag ∧
      (stepData ty a2 d).is_empty =
        (if ty = some TAG_TYPE then
          update_maybe_value (childrenEmpty (argChildren a2)) d.is_empty
        else d.is_empty)) ∧
    (∀ (v b : Bool), v ≠ b → update_maybe_value v (.val b) = .null) ∧
    (alook (extract exNumBare []) "x").map PInfo.is_number = some .null ∧
    (alook (extract exNumBare []) "x").map PInfo.is_number ≠ some (.val true) ∧
    (alook (extract exNumBare []) "x").map PInfo.is_number ≠ some (.val false) := by
  refine ⟨fun d ty a2 => ⟨stepData_is_number ty a2 d, stepData_is_date ty a2 d,
      stepData_is_tag ty a2 d, stepData_is_empty ty a2 d⟩, ?_, by decide, by decide, by decide⟩
  intro v b hvb
  cases v <;> cases b <;> first | exact absurd rfl hvb | decide

theorem c3_tristate_merge_witness :
    (true : Bool) ≠ false ∧ update_maybe_value true (.val false) = .null :=
  ⟨by decide, c3_tristate_merge.2.1 true false (by decide)⟩

/-! ## C4: kind merge -/

/-- C4. The final kind of an entry is the fold of the source's kind-merge
rule over the name's occurrence kinds in depth-first order: first non-empty
kind wins, upgraded to `datetime` only when the currently settled kind is
`date` and the occurrence reports `time` or vice versa. -/
theorem c4_kind_merge (t : Ast) (name : String) :
    (alook (extract t []) name).map PInfo.type =
      if (occs name t).isEmpty then none
      else some (((occs name t).map Prod.fst).foldl mergeKind none) := by
  rw [extract_occs name t []]
  cases h : occs name t with
  | nil => simp [applyOccs, alook]
  | cons o rest =>
    have hs := applyOccs_isSome_of_ne_nil name (o :: rest) (by simp) (alook ([] : Vars) name)
    obtain ⟨x, hx⟩ := Option.isSome_iff_exists.mp hs
    have htype := applyOccs_type name (o :: rest) (alook ([] : Vars) name)
    rw [hx] at htype
    simp only [Option.getD_some] at htype
    rw [hx]
    simp only [Option.map_some', List.isEmpty_cons, if_false, Bool.false_eq_true]
    rw [htype]
    rfl

/-- What the frozen claim C4 asserts about the final kind: first non-empty
kind in traversal order, except that the presence of both a `date` and a
`time` occurrence (in either order, anywhere) upgrades to `datetime`. -/
def firstNonEmptyKind : List (Option String) → Option String
  | [] => none
  | k :: rest => if strTruthy k then k else firstNonEmptyKind rest

def claimKindC4 (kinds : List (Option String)) : Option String :=
  if (some "date") ∈ kinds ∧ (some "time") ∈ kinds then some "datetime"
  else firstNonEmptyKind kinds

/-- C4 counterexample: in `"{x, number} {x, date} {x, time}"` one occurrence
reports `date` and another `time`, so the claim as stated demands the
combined `datetime`; the code keeps the first non-empty kind `number`,
because the upgrade fires only when the settled kind itself is `date` or
`time`. -/
theorem c4_first_wins_cex :
    claimKindC4 ((occs "x" exNumDateTime).map Prod.fst) = some "datetime" ∧
    (alook (extract exNumDateTime []) "x").map PInfo.type = some (some "number") ∧
    (some (some "number") : Option (Option String)) ≠ some (some "datetime") := by
  refine ⟨by decide, by decide, by decide⟩

/-! ## C5: the classifier -/

/-- C5 (amended). For an entry with exactly one occurrence, the stored
editor kind is `classify` of the merged entry. -/
theorem c5_single_occurrence_classify (t : Ast) (name : String)
    (h : (occs name t).length = 1) :
    (alook (extract t []) name).map (fun d => editorKindOf d.editor_type)
      = (alook (extract t []) name).map classify := by
  obtain ⟨o, ho⟩ := List.length_eq_one.mp h
  rw [extract_occs name t [], ho]
  have : applyOccs name (alook ([] : Vars) name) [o]
      = some (stepData o.1 o.2 { name := name }) := rfl
  rw [this]
  simp only [Option.map_some']
  exact congrArg some (stepData_fresh_classify name o.1 o.2)

theorem c5_single_occurrence_classify_witness :
    (occs "x" exDuration).length = 1 ∧
    (alook (extract exDuration []) "x").map (fun d => editorKindOf d.editor_type)
      = (alook (extract exDuration []) "x").map classify :=
  ⟨by decide, c5_single_occurrence_classify exDuration "x" (by decide)⟩

/-- C5 counterexample: in `"{x, number} {x}"` the merged `is_number` is
`unknown`, yet the stored editor kind is still the numeric control from the
first occurrence, while `classify` on the merged entry gives plain text. -/
theorem c5_stale_editor_kind_cex :
    (alook (extract exNumBare []) "x").map PInfo.is_number = some .null ∧
    (alook (extract exNumBare []) "x").map (fun d => editorKindOf d.editor_type)
      = some .numeric ∧
    (alook (extract exNumBare []) "x").map classify = some .plain ∧
    EKind.numeric ≠ EKind.plain := by
  refine ⟨by decide, by decide, by decide, by decide⟩

/-! ## Concrete reconciler states and extracted entries -/

/-- The entry `extract` builds for the single bare occurrence `"{x}"`. -/
def infoBareX : PInfo :=
  { name := "x", is_number := .val false, is_date := .val false, is_tag := .val false,
    keyOrder := ["name", "is_number", "is_date", "is_tag"] }

/-- The entry `extract` builds for `"{x, number}"`. -/
def infoNumX : PInfo :=
  { name := "x", type := some "number", is_number := .val true, is_date := .val false,
    is_tag := .val false, editor_type := some (.str "number"),
    keyOrder := ["name", "type", "is_number", "is_date", "is_tag", "editor_type"] }

/-- The entry `extract` builds for `"{x, date}"`. -/
def infoDateX : PInfo :=
  { name := "x", type := some "date", is_number := .val false, is_date := .val true,
    is_tag := .val false, editor_type := some (.str "date"),
    keyOrder := ["name", "type", "is_number", "is_date", "is_tag", "editor_type"] }

/-- The entry `extract` builds for `"{x, duration}"`. -/
def infoDurX : PInfo :=
  { name := "x", type := some "duration", is_number := .val false, is_date := .val false,
    is_tag := .val false, editor_type := some (.str "number"),
    keyOrder := ["name", "type", "is_number", "is_date", "is_tag", "editor_type"] }

example : alook (extract exBare []) "x" = some infoBareX := by decide
example : alook (extract exNum []) "x" = some infoNumX := by decide
example : alook (extract exDate []) "x" = some infoDateX := by decide
example : alook (extract exDuration []) "x" = some infoDurX := by decide

/-! ## C1: carry-forward stability -/

/-- C1 (amended). In a pass whose page did not change, a name whose
previous entry serializes (key order included) to the same JSON as the new
one keeps its widget instance and tag callback; its default is carried only
when truthy; and the user overrides are untouched by the pass. -/
theorem c1_carry_forward (t : Ast) (now : Int) (st : LPState) (k : String) (ty ot : PInfo)
    (hty : alook (extract t []) k = some ty)
    (hcp : st.old_page = some st.page)
    (hot : st.types.bind (fun m => alook m k) = some ot)
    (heq : jsonEntries ot = jsonEntries ty) :
    alook (syncContent (.ok t) now st).editors k = alook st.editors k ∧
    alook (syncContent (.ok t) now st).tags k = alook st.tags k ∧
    alook (syncContent (.ok t) now st).defaults k
      = (alook st.defaults k).bind (fun v => if valTruthy v then some v else none) ∧
    (syncContent (.ok t) now st).variables' = st.variables' := by
  have hc : carries st (decide (st.old_page ≠ some st.page)) k ty = true := by
    simp [carries, hcp, hot, stringifyEq, heq]
  obtain ⟨nid, q1, q2, q3⟩ := syncContent_lookup t now st k ty hty
  refine ⟨?_, ?_, ?_, syncContent_variables _ _ _⟩
  · rw [q1]; unfold stepEditors; rw [if_pos hc]
  · rw [q2]; unfold stepTags; rw [if_pos hc]
  · rw [q3]; unfold stepDefaults; rw [if_pos hc]

/-- A state that has reconciled `"{x}"` once (no page values). -/
def stC1w : LPState := syncContent (.ok exBare) 0 (initState [[]])

theorem c1_carry_forward_witness :
    stC1w.old_page = some stC1w.page ∧
    (alook (syncContent (.ok exBare) 0 stC1w).editors "x" = alook stC1w.editors "x" ∧
     alook (syncContent (.ok exBare) 0 stC1w).tags "x" = alook stC1w.tags "x" ∧
     alook (syncContent (.ok exBare) 0 stC1w).defaults "x"
       = (alook stC1w.defaults "x").bind (fun v => if valTruthy v then some v else none) ∧
     (syncContent (.ok exBare) 0 stC1w).variables' = stC1w.variables') :=
  ⟨by decide,
    c1_carry_forward exBare 0 stC1w "x" infoBareX infoBareX
      (by decide) (by decide) (by decide) (by decide)⟩

/-- Structural value-equality on every informational field of an entry
(`choices` compared as an ordered list), as the claim C1 states it. -/
def valueEq (a b : PInfo) : Bool :=
  decide (a.name = b.name) && decide (a.type = b.type) &&
  decide (a.is_number = b.is_number) && decide (a.is_date = b.is_date) &&
  decide (a.is_tag = b.is_tag) && decide (a.is_empty = b.is_empty) &&
  decide (a.choices = b.choices) && decide (a.editor_type = b.editor_type)

def optValueEq : Option PInfo → Option PInfo → Option Bool
  | some x, some y => some (valueEq x y)
  | _, _ => none

/-- A page whose value for `x` is the empty string (falsy). -/
def exPageEmptyStr : List Page := [[("x", Val.str "")]]

def stC1a : LPState := syncContent (.ok exBare) 0 (initState exPageEmptyStr)

def stC1b : LPState := syncContent (.ok exBare) 0 stC1a

/-- C1 counterexample: the same text reconciled twice with an unchanged
page; the new entry is structurally value-equal to the previous one and the
page did not change, yet the falsy default `""` is not carried forward (the
carry is guarded by the default's truthiness), while the widget itself is
carried. -/
theorem c1_falsy_default_cex :
    optValueEq (stC1a.types.bind (fun m => alook m "x")) (alook (extract exBare []) "x")
      = some true ∧
    decide (stC1a.old_page ≠ some stC1a.page) = false ∧
    alook stC1a.defaults "x" = some (Val.str "") ∧
    alook stC1b.defaults "x" = none ∧
    alook stC1b.editors "x" = alook stC1a.editors "x" := by
  refine ⟨by decide, by decide, by decide, by decide, by decide⟩

/-! ## C2: a parse error's effect on the pass -/

/-- C2 (amended). When the parse throws, the error message is the entire
preview output and no extraction or per-entry reconciliation happens, but
the pass does not leave the prior widget state untouched: the widget set,
tag callbacks and defaults are cleared (every prior widget is removed);
only the user overrides survive. -/
theorem c2_parse_error (m : String) (now : Int) (st : LPState) :
    (syncContent (.error m) now st).error = some m ∧
    updateTranslation (syncContent (.error m) now st) = .errorText m ∧
    (syncContent (.error m) now st).types = none ∧
    (syncContent (.error m) now st).editors = [] ∧
    (syncContent (.error m) now st).tags = [] ∧
    (syncContent (.error m) now st).defaults = [] ∧
    (syncContent (.error m) now st).variables' = st.variables' :=
  ⟨rfl, rfl, rfl, rfl, rfl, rfl, rfl⟩

def stC2a : LPState := syncContent (.ok exBare) 0 (initState [[]])

def stC2b : LPState := syncContent (.error "boom") 0 stC2a

/-- C2 counterexample: a run whose parse throws does not leave the prior
widget set and defaults exactly as they were — it empties them. -/
theorem c2_wiped_widgets_cex :
    stC2b.error = some "boom" ∧
    (alook stC2a.editors "x").isSome = true ∧
    stC2b.editors ≠ stC2a.editors ∧
    stC2b.defaults ≠ stC2a.defaults := by
  refine ⟨by decide, by decide, by decide, by decide⟩

/-! ## C7: the default value rule -/

/-- The default recorded for a key that is neither carried nor a tag. -/
theorem sync_default_lookup (t : Ast) (now : Int) (st : LPState) (k : String) (ty : PInfo)
    (hty : alook (extract t []) k = some ty)
    (hnc : carries st (decide (st.old_page ≠ some st.page)) k ty = false)
    (hnt : mtruthy ty.is_tag = false) :
    alook (syncContent (.ok t) now st).defaults k
      = some (computeDefault st.current_page k ty now) := by
  obtain ⟨nid, _, _, q3⟩ := syncContent_lookup t now st k ty hty
  rw [q3]
  unfold stepDefaults
  rw [if_neg (by rw [hnc]; simp), if_neg (by rw [hnt]; simp)]

/-- C7 (amended). For a placeholder that is not carried forward and is not
a tag, the recorded default is exactly `computeDefault`: a page-provided
literal when the page owns the key (coerced by `new Date` only when the
merged `is_date` flag is settled true); else the current instant when
`is_date` is settled true; else `1` when `is_number` is settled true; else
the first choice when the merged kind is `select` and `choices` is an
array; else the placeholder's own name. -/
theorem c7_default_rule (t : Ast) (now : Int) (st : LPState) (k : String) (ty : PInfo)
    (hty : alook (extract t []) k = some ty)
    (hnc : carries st (decide (st.old_page ≠ some st.page)) k ty = false)
    (hnt : mtruthy ty.is_tag = false) :
    alook (syncContent (.ok t) now st).defaults k
      = some (computeDefault st.current_page k ty now) :=
  sync_default_lookup t now st k ty hty hnc hnt

theorem c7_default_rule_witness :
    mtruthy infoDurX.is_tag = false ∧
    alook (syncContent (.ok exDuration) 7 (initState [[]])).defaults "x"
      = some (computeDefault (initState [[]]).current_page "x" infoDurX 7) :=
  ⟨by decide,
    c7_default_rule exDuration 7 (initState [[]]) "x" infoDurX
      (by decide) (by decide) (by decide)⟩

/-- Modelled from the claim C7: the default chosen by the classified editor
kind — page literal (coerced to a date for date-like kinds), else the
current instant for date-like kinds, else `1` for numeric kinds, else the
first choice (or the name when choices is empty) for a select, else the
name. -/
def claimDefault (page : Option Page) (key : String) (k : EKind)
    (choices : Option (List String)) (now : Int) : Val :=
  if has page key then
    match k with
    | .date _ => jsNewDate ((alook (page.getD []) key).getD .undef)
    | _ => (alook (page.getD []) key).getD .undef
  else
    match k with
    | .date _ => .date now
    | .numeric => .num 1
    | .selection =>
      match (choices.getD []).head? with
      | some c => .str c
      | none => .str key
    | _ => .str key

def stC7 : LPState := syncContent (.ok exDuration) 7 (initState [[]])

/-- C7 counterexample: `"{x, duration}"` classifies to a numeric control,
so the claim demands the default `1`; the code tests the merged `is_number`
flag, which is false for `duration`, and falls through to the placeholder's
own name. -/
theorem c7_duration_default_cex :
    (alook (extract exDuration []) "x").map (fun d => editorKindOf d.editor_type)
      = some .numeric ∧
    alook stC7.defaults "x" = some (Val.str "x") ∧
    claimDefault (pageAt [[]] 0) "x" EKind.numeric none 7 = Val.num 1 ∧
    (Val.str "x") ≠ (Val.num 1) := by
  refine ⟨by decide, by decide, by decide, by decide⟩

/-! ## C6: override compatibility -/

/-- C6 (amended). When a widget is recreated for a placeholder (not
carried, not a tag, not suppressed), its seed is `seedFor`: the stored
override replaces the fresh default exactly when the two values have the
same JavaScript `typeof`; otherwise the fresh default is used. The fresh
default's `typeof` follows the classified kind's category only when no
page literal of another type is in play, so this is not the claim's
category test against the editor kind. -/
theorem c6_seed_rule (t : Ast) (now : Int) (st : LPState) (k : String) (ty : PInfo)
    (hty : alook (extract t []) k = some ty)
    (hnc : carries st (decide (st.old_page ≠ some st.page)) k ty = false)
    (hnt : mtruthy ty.is_tag = false)
    (hnd : ty.editor_type ≠ some .disabled) :
    ∃ nid, alook (syncContent (.ok t) now st).editors k
      = some { id := nid, kind := widgetKindFor ty,
               seed := seedFor st.variables' k (computeDefault st.current_page k ty now) } := by
  obtain ⟨nid, q1, _, _⟩ := syncContent_lookup t now st k ty hty
  refine ⟨nid, ?_⟩
  rw [q1]
  unfold stepEditors
  rw [if_neg (by rw [hnc]; simp), if_neg (by rw [hnt]; simp), if_neg hnd]

theorem c6_seed_rule_witness :
    infoBareX.editor_type ≠ some .disabled ∧
    (∃ nid, alook (syncContent (.ok exBare) 0 (initState [[]])).editors "x"
      = some { id := nid, kind := widgetKindFor infoBareX,
               seed := seedFor (LPState.variables' (initState [[]])) "x"
                 (computeDefault (initState [[]]).current_page "x" infoBareX 0) }) :=
  ⟨by decide,
    c6_seed_rule exBare 0 (initState [[]]) "x" infoBareX
      (by decide) (by decide) (by decide) (by decide)⟩

/-- The basic value category of the claim C6: date vs. number vs. text. -/
inductive ValCat where
  | dateCat : ValCat
  | numberCat : ValCat
  | textCat : ValCat
  deriving DecidableEq, Repr

def catOfVal : Val → ValCat
  | .date _ => .dateCat
  | .dateStr _ => .dateCat
  | .invalidDate => .dateCat
  | .num _ => .numberCat
  | _ => .textCat

def catOfKind : EKind → ValCat
  | .date _ => .dateCat
  | .numeric => .numberCat
  | _ => .textCat

/-- Modelled from the claim C6: the stored override seeds the widget in
place of the fresh default if and only if its basic value category matches
the newly classified editor kind. -/
def claimSeed (override : Option Val) (fresh : Val) (k : EKind) : Val :=
  match override with
  | some v => if catOfVal v = catOfKind k then v else fresh
  | none => fresh

/-- A page whose value for `x` is the string `"five"`. -/
def exPageFive : List Page := [[("x", Val.str "five")]]

def stC6a : LPState := syncContent (.ok exBare) 0 (initState exPageFive)

def stC6b : LPState := updateValue infoBareX "x" 0 "hello" stC6a

def stC6c : LPState := syncContent (.ok exNum) 0 stC6b

/-- C6 counterexample: the text changes from `"{x}"` to `"{x, number}"`
with a stored free-text override `"hello"` and a page literal `"five"`.
The new editor kind is numeric, so the claim discards the text override in
favor of the fresh default `"five"`; the code compares `typeof` of the
override against `typeof` of the default (string vs. string) and keeps
`"hello"` as the numeric widget's seed. -/
theorem c6_category_cex :
    alook stC6b.variables' "x" = some (Val.str "hello") ∧
    (alook (extract exNum []) "x").map (fun d => editorKindOf d.editor_type)
      = some .numeric ∧
    computeDefault stC6b.current_page "x" infoNumX 0 = Val.str "five" ∧
    (alook stC6c.editors "x").map Widget.seed = some (Val.str "hello") ∧
    claimSeed (some (Val.str "hello")) (Val.str "five") EKind.numeric = Val.str "five" ∧
    (Val.str "hello") ≠ (Val.str "five") := by
  refine ⟨by decide, by decide, by decide, by decide, by decide, by decide⟩

/-! ## C8: page change reset -/

/-- C8 (amended). A page-navigation action that lands on a different page
index, with an unchanged token tree, clears all user override values and
recomputes every non-tag placeholder's default from the newly selected
page's value set (the carry-forward rule is bypassed because the page
changed). A navigation that wraps around to the same index still clears
the overrides but does not bypass carry-forward. -/
theorem sync_changed_defaults (t : Ast) (now : Int) (st : LPState) (k : String) (ty : PInfo)
    (hty : alook (extract t []) k = some ty)
    (hcp : st.old_page ≠ some st.page)
    (hnt : mtruthy ty.is_tag = false) :
    alook (syncContent (.ok t) now st).defaults k
      = some (computeDefault st.current_page k ty now) := by
  apply sync_default_lookup t now st k ty hty ?_ hnt
  have hd : decide (st.old_page ≠ some st.page) = true := by simpa using hcp
  rw [hd]
  simp [carries]

theorem c8_page_change_reset (cfg : List Page) (incr : Int) (t : Ast) (now : Int)
    (st : LPState) (k : String) (ty : PInfo)
    (hop : st.old_page = some st.page)
    (hne : newPageOf cfg incr st.page ≠ st.page)
    (hty : alook (extract t []) k = some ty)
    (hnt : mtruthy ty.is_tag = false) :
    (changePage cfg incr (.ok t) now st).variables' = [] ∧
    alook (changePage cfg incr (.ok t) now st).defaults k
      = some (computeDefault (pageAt cfg (newPageOf cfg incr st.page)) k ty now) := by
  unfold changePage
  constructor
  · exact syncContent_variables _ _ _
  · refine sync_changed_defaults t now _ k ty hty ?_ hnt
    show st.old_page ≠ some (newPageOf cfg incr st.page)
    rw [hop]
    intro h
    exact hne (Option.some.inj h).symm

/-- A state that has reconciled `"{x}"` on the first of two pages. -/
def stC8w : LPState := syncContent (.ok exBare) 0 (initState [[], []])

theorem c8_page_change_reset_witness :
    newPageOf [[], []] 1 stC8w.page ≠ stC8w.page ∧
    ((changePage [[], []] 1 (.ok exBare) 0 stC8w).variables' = [] ∧
     alook (changePage [[], []] 1 (.ok exBare) 0 stC8w).defaults "x"
       = some (computeDefault (pageAt [[], []] (newPageOf [[], []] 1 stC8w.page)) "x" infoBareX 0)) :=
  ⟨by decide,
    c8_page_change_reset [[], []] 1 exBare 0 stC8w "x" infoBareX
      (by decide) (by decide) (by decide) (by decide)⟩

def stC8a : LPState := syncContent (.ok exDate) 5 (initState [[]])

def stC8b : LPState := changePage [[]] 1 (.ok exDate) 99 stC8a

/-- C8 counterexample: with a single page, pressing next wraps around to
the same page index. The tree is unchanged, so this page-navigation action
hits the carry-forward rule: the date default stays the instant of the
earlier pass instead of being recomputed from the (re)selected page's value
set at the new instant; the claim as stated demands recomputation on every
page-navigation action. -/
theorem c8_same_page_cex :
    (alook (extract exDate []) "x") = some infoDateX ∧
    newPageOf [[]] 1 stC8a.page = stC8a.page ∧
    stC8b.variables' = [] ∧
    alook stC8b.defaults "x" = some (Val.date 5) ∧
    computeDefault (pageAt [[]] (newPageOf [[]] 1 stC8a.page)) "x" infoDateX 99 = Val.date 99 ∧
    (Val.date 5) ≠ (Val.date 99) := by
  refine ⟨by decide, by decide, by decide, by decide, by decide, by decide⟩
